import Mathlib

/-!
Verification of the WelcomeView component in src/frontend/src/App.js.

The component is a zero-argument function returning a fixed JSX tree:
a div container holding a header, which holds an h1 title, a p subtitle
and an anchor to the official Formula 1 website. We embed the returned
JSX value as a document tree and prove the specified properties of the
rendered output by evaluation.
-/

/-- A node of the rendered document tree: either an element carrying a tag
name, a list of attribute name and value pairs, and a list of child nodes,
or a run of text. -/
inductive Node where
  | element (tag : String) (attrs : List (String × String)) (children : List Node)
  | text (s : String)
deriving Repr

/-- Shallow embedding of the App function from src/frontend/src/App.js.
The function takes no arguments, modelled by a Unit parameter, and returns
the JSX tree built in its body. JSX trims whitespace-only surroundings of
literal text, so each text child is the trimmed literal. Attribute order
follows the source. -/
def App : Unit → Node := fun _ =>
  .element "div" [("className", "App")]
    [.element "header" [("className", "App-header")]
      [.element "h1" [] [.text "🏎️ Welcome to the Formula 1 Fan Hub"],
       .element "p" [] [.text "Speed. Strategy. Adrenaline."],
       .element "a"
         [("className", "f1-link"),
          ("href", "https://www.formula1.com"),
          ("target", "_blank"),
          ("rel", "noreferrer")]
         [.text "Visit Official F1 Website"]]]

mutual

/-- Number of elements carrying the given tag in a tree, the root included. -/
def countTag (tag : String) : Node → Nat
  | .text _ => 0
  | .element t _ cs => (if t = tag then 1 else 0) + countTagList tag cs

/-- Number of elements carrying the given tag across a list of trees. -/
def countTagList (tag : String) : List Node → Nat
  | [] => 0
  | c :: cs => countTag tag c + countTagList tag cs

end

mutual

/-- All elements carrying the given tag in a tree, in document order. -/
def elemsOfTag (tag : String) : Node → List Node
  | .text _ => []
  | .element t as cs =>
      (if t = tag then [Node.element t as cs] else []) ++ elemsOfTagList tag cs

/-- All elements carrying the given tag across a list of trees, in document
order. -/
def elemsOfTagList (tag : String) : List Node → List Node
  | [] => []
  | c :: cs => elemsOfTag tag c ++ elemsOfTagList tag cs

end

mutual

/-- All runs of text in a tree, in document order. -/
def textsOf : Node → List String
  | .text s => [s]
  | .element _ _ cs => textsOfList cs

/-- All runs of text across a list of trees, in document order. -/
def textsOfList : List Node → List String
  | [] => []
  | c :: cs => textsOf c ++ textsOfList cs

end

/-- Value of the first attribute with the given name on a node, if any. -/
def attrOf (name : String) : Node → Option String
  | .text _ => none
  | .element _ as _ => (as.find? (fun p => p.1 == name)).map Prod.snd

/-- Child nodes of a node; a run of text has none. -/
def childrenOf : Node → List Node
  | .text _ => []
  | .element _ _ cs => cs

/-- Tag of a node, if it is an element. -/
def tagOf : Node → Option String
  | .text _ => none
  | .element t _ _ => some t

/-- Split a string at each space character, keeping empty pieces, as the
DOMTokenList view of an attribute value does for token counting. -/
def spaceSplit (s : String) : List String :=
  (s.toList.foldr
    (fun c groups =>
      if c = ' ' then [] :: groups
      else
        match groups with
        | [] => [[c]]
        | g :: gs => (c :: g) :: gs)
    [[]]).map fun g => String.mk g

/-- Space-separated tokens of the rel attribute of a node; the empty token
list view is taken on the empty string when the attribute is absent. -/
def relTokens (n : Node) : List String :=
  spaceSplit ((attrOf "rel" n).getD "")

/-- Invocation of App inside an ambient host state of an arbitrary type.
The body of App in src/frontend/src/App.js is a single return of a pure
expression, with no assignment and no call; the embedding therefore pairs
the returned tree with the input state left untouched. -/
def renderInState (σ : Type) (s : σ) : Node × σ := (App (), s)

/-- C1: the tree returned by App contains exactly one anchor element, and
that anchor has href equal to https://www.formula1.com, has the target
attribute set to _blank, and has the rel attribute set. -/
theorem anchor_unique_with_attributes :
    countTag "a" (App ()) = 1 ∧
    ∃ n : Node, elemsOfTag "a" (App ()) = [n] ∧
      attrOf "href" n = some "https://www.formula1.com" ∧
      attrOf "target" n = some "_blank" ∧
      (attrOf "rel" n).isSome = true :=
  ⟨rfl, _, rfl, rfl, rfl, rfl⟩

/-- C2: App takes no arguments and rendering is idempotent: any two
invocations return structurally identical trees. -/
theorem app_idempotent (u v : Unit) : App u = App v := rfl

/-- C3: the text of the h1 heading element of the tree returned by App is
exactly the welcome title string, on every invocation. -/
theorem heading_title_text (u : Unit) :
    ∃ n : Node, elemsOfTag "h1" (App u) = [n] ∧
      textsOf n = ["🏎️ Welcome to the Formula 1 Fan Hub"] :=
  ⟨_, rfl, rfl⟩

/-- C4: the text of the subtitle paragraph element of the tree returned by
App is exactly the subtitle string, on every invocation. -/
theorem subtitle_text (u : Unit) :
    ∃ n : Node, elemsOfTag "p" (App u) = [n] ∧
      textsOf n = ["Speed. Strategy. Adrenaline."] :=
  ⟨_, rfl, rfl⟩

/-- C5: the visible display text of the single anchor element in the tree
returned by App is exactly the string Visit Official F1 Website. -/
theorem anchor_display_text :
    ∃ n : Node, elemsOfTag "a" (App ()) = [n] ∧
      textsOf n = ["Visit Official F1 Website"] :=
  ⟨_, rfl, rfl⟩

/-- C6: rendered with no arguments, the output tree has exactly one div
container, exactly one header block, exactly two text lines (the h1 title
and the p subtitle), and exactly one anchor, whose visible text is Visit
Official F1 Website. -/
theorem render_shape_counts :
    countTag "div" (App ()) = 1 ∧
    countTag "header" (App ()) = 1 ∧
    countTag "h1" (App ()) + countTag "p" (App ()) = 2 ∧
    countTag "a" (App ()) = 1 ∧
    ∃ n : Node, elemsOfTag "a" (App ()) = [n] ∧
      textsOf n = ["Visit Official F1 Website"] :=
  ⟨rfl, rfl, rfl, rfl, _, rfl, rfl⟩

/-- C7: App is total and has no error conditions. Its source performs no
fallible operation, so its embedding returns a plain tree rather than an
Option or Except value, and for the unique empty input the evaluation
completes with the definite tree written out below; no failure branch
exists to be reached. -/
theorem app_total_no_error (u : Unit) :
    App u =
      Node.element "div" [("className", "App")]
        [.element "header" [("className", "App-header")]
          [.element "h1" [] [.text "🏎️ Welcome to the Formula 1 Fan Hub"],
           .element "p" [] [.text "Speed. Strategy. Adrenaline."],
           .element "a"
             [("className", "f1-link"),
              ("href", "https://www.formula1.com"),
              ("target", "_blank"),
              ("rel", "noreferrer")]
             [.text "Visit Official F1 Website"]]] :=
  rfl

/-- C8: invoking App has no side effect: rendered inside an ambient host
state of any type, the state after the invocation is the input state
unchanged, and the produced tree is the fixed rendered tree. The tree is a
pure value of the embedding, so no mutation after the initial render is
expressible on it. -/
theorem render_pure_frame (σ : Type) (s : σ) :
    (renderInState σ s).2 = s ∧ (renderInState σ s).1 = App () :=
  ⟨rfl, rfl⟩

/-- C9: the rel attribute of the single anchor element in the tree returned
by App consists of exactly the single token noreferrer, and in particular
carries no explicit noopener token. -/
theorem rel_single_token_noreferrer :
    ∃ n : Node, elemsOfTag "a" (App ()) = [n] ∧
      relTokens n = ["noreferrer"] ∧ "noopener" ∉ relTokens n := by
  refine ⟨_, rfl, ?_, ?_⟩ <;> decide

/-- C10: the header block of the tree returned by App has exactly three
children, in the fixed order h1 title, then p subtitle, then anchor, the
same on every invocation. -/
theorem header_children_order (u : Unit) :
    ∃ hd : Node, elemsOfTag "header" (App u) = [hd] ∧
      (childrenOf hd).map tagOf = [some "h1", some "p", some "a"] :=
  ⟨_, rfl, rfl⟩
